import Mathlib

/-!
Shallow embedding of the distance-vector router from this repository.
The main draft is `dv.py` (class `Router`); a second draft `RouterServer.py`
is embedded where its behaviour differs.  Python dictionaries are modelled
as insertion-ordered association lists (replace-in-place on existing key,
append on new key), Python costs as `WithTop ℤ` with `⊤` playing the role
of `float('inf')` (addition is absorbing, comparisons agree).  The
topology loader of `dv.py` parses every cost with `int(...)`, so integer
costs cover the program's arithmetic exactly (`+`, `<`, `=` on
integer-valued floats are exact).
-/

namespace DVR

/-- Link / route costs: integers extended with infinity, mirroring the
Python costs (`float('inf')` included) used by `dv.py`. -/
abbrev Cost := WithTop ℤ

/-- Lookup in an association list, first binding wins (Python dict keys are
unique, so this matches `d[k]` / `d.get(k)`). -/
def alookup {α : Type} : List (Nat × α) → Nat → Option α
  | [], _ => none
  | (k, v) :: t, x => if k = x then some v else alookup t x

/-- `d.get(k, dflt)` on a Python dict. -/
def agetD {α : Type} (l : List (Nat × α)) (x : Nat) (d : α) : α :=
  (alookup l x).getD d

/-- `d[k] = v` on a Python dict: replace in place when the key exists,
append at the end otherwise (insertion order preserved). -/
def aset {α : Type} : List (Nat × α) → Nat → α → List (Nat × α)
  | [], k, v => [(k, v)]
  | (k', v') :: t, k, v => if k' = k then (k, v) :: t else (k', v') :: aset t k v

/-- `list(d.keys())` on a Python dict. -/
def akeys {α : Type} (l : List (Nat × α)) : List Nat := l.map Prod.fst

/-- `del d[k]` / `d.pop(k, None)` on a Python dict. -/
def adel {α : Type} : List (Nat × α) → Nat → List (Nat × α)
  | [], _ => []
  | (k', v') :: t, k => if k' = k then t else (k', v') :: adel t k

/-- Add an element to a Python `set` (membership-only; kept duplicate free). -/
def sadd {α : Type} [DecidableEq α] (s : List α) (x : α) : List α :=
  if x ∈ s then s else s ++ [x]

/-- `self.topology`: a dict from node id to a dict from node id to cost. -/
abbrev Topo := List (Nat × List (Nat × Cost))

/-- `self.topology[a][b] = c` where `topology` is a `defaultdict(dict)`. -/
def topoSet (t : Topo) (a b : Nat) (c : Cost) : Topo :=
  aset t a (aset (agetD t a []) b c)

/-- Removal of a crashed node from the topology dict: delete its outer
entry and then delete it from every remaining inner dict. -/
def topoDelNode (t : Topo) (cid : Nat) : Topo :=
  (adel t cid).map (fun p => (p.1, adel p.2 cid))

/-- The decoded wire messages of `dv.py` (JSON payloads), one constructor
per dispatch branch of `Router.process_message`. -/
inductive DvMsg : Type
  | serverCrash (crashedId : Nat)
  | updateTopology (server1 server2 : Nat) (newCost : Cost) (origin : Int)
  | disableLink (server1 server2 : Nat) (origin : Int)
  | routingUpdate (senderId : Nat) (table : List (Nat × Cost))
  | unknown
deriving DecidableEq

/-- Observable side effects of a router operation: a framed send to a
neighbor, an operator-facing error report, or the `packets` printout. -/
inductive Ev : Type
  | send (dst : Nat) (m : DvMsg)
  | opError (sid : Nat)
  | printPackets (n : Nat)
deriving DecidableEq

/-- The mutable state of `dv.py`'s `Router` (the fields the routing logic
reads and writes; sockets and threads are outside the state). -/
structure DvState : Type where
  myId : Nat
  nodes : List Nat
  nodeAddr : List (Nat × (String × Nat))
  routing_table : List (Nat × Cost)
  next_hop : List (Nat × Option Nat)
  neighbors : List (Nat × Cost)
  topology : Topo
  number_of_packets_received : Nat
  processed_updates : List (Nat × Nat × Cost)
  disabled_links : List (Nat × Nat)
  running : Bool
deriving DecidableEq

/-- The reset loop at the top of `recompute_routing_table`: distance to
self is 0 with next hop self, every other node gets `∞` and `None`. -/
def bfInit (myId : Nat) (nodes : List Nat)
    (p : List (Nat × Cost) × List (Nat × Option Nat)) :
    List (Nat × Cost) × List (Nat × Option Nat) :=
  nodes.foldl
    (fun q nd =>
      if nd = myId then (aset q.1 nd 0, aset q.2 nd (some myId))
      else (aset q.1 nd ⊤, aset q.2 nd none))
    p

/-- One edge relaxation of the Bellman-Ford loop in
`recompute_routing_table`: skip `∞` links, adopt strictly cheaper routes. -/
def relaxEdge (myId : Nat) (p : List (Nat × Cost) × List (Nat × Option Nat))
    (fr dst : Nat) (c : Cost) : List (Nat × Cost) × List (Nat × Option Nat) :=
  if c = ⊤ then p
  else
    let n := agetD p.1 fr ⊤ + c
    if n < agetD p.1 dst ⊤ then
      (aset p.1 dst n,
       aset p.2 dst (if myId = fr then some dst else agetD p.2 fr none))
    else p

/-- One full pass of the relaxation over every edge of the stored topology
dict, in dict iteration (= insertion) order. -/
def relaxPass (myId : Nat) (topo : Topo)
    (p : List (Nat × Cost) × List (Nat × Option Nat)) :
    List (Nat × Cost) × List (Nat × Option Nat) :=
  topo.foldl
    (fun q e => e.2.foldl (fun q2 e2 => relaxEdge myId q2 e.1 e2.1 e2.2) q) p

/-- The trailing loop of `recompute_routing_table`: every destination whose
cost is `∞` gets next hop `None`. -/
def fixUnreach (p : List (Nat × Cost) × List (Nat × Option Nat)) :
    List (Nat × Cost) × List (Nat × Option Nat) :=
  (p.1,
   (akeys p.1).foldl
     (fun h d => if agetD p.1 d ⊤ = ⊤ then aset h d none else h) p.2)

/-- `Router.recompute_routing_table` of `dv.py`: reset the table, run the
relaxation pass `len(nodes) - 1` times over the full topology dict, then
null out next hops of unreachable destinations. -/
def recompute_routing_table (st : DvState) : DvState :=
  let p0 := bfInit st.myId st.nodes (st.routing_table, st.next_hop)
  let p1 := (List.range (st.nodes.length - 1)).foldl
    (fun q _ => relaxPass st.myId st.topology q) p0
  let p2 := fixUnreach p1
  { st with routing_table := p2.1, next_hop := p2.2 }

/-- `Router.step` of `dv.py`: send the current routing table to every
neighbor found in the node list; the routing state itself is untouched. -/
def step (st : DvState) : DvState × List Ev :=
  (st,
   st.neighbors.filterMap fun p =>
     if p.1 ∈ st.nodes then
       some (Ev.send p.1 (DvMsg.routingUpdate st.myId st.routing_table))
     else none)

/-- `Router.broadcast_topology_update` of `dv.py`: forward an
`update_topology` message to every neighbor other than the origin; a
falsy (zero) origin id is replaced by this router's id in the payload. -/
def broadcast_topology_update (st : DvState) (s1 s2 : Nat) (c : Cost)
    (origin : Int) : List Ev :=
  (akeys st.neighbors).filterMap fun nid =>
    if nid ∈ st.nodes ∧ (nid : Int) ≠ origin then
      some (Ev.send nid (DvMsg.updateTopology s1 s2 c
        (if origin = 0 then (st.myId : Int) else origin)))
    else none

/-- `Router.update` of `dv.py`: write the new cost into the topology dict
both ways; on `∞`, record the link as disabled and drop the neighbor,
broadcasting `disable_link`; on a finite cost, refresh the neighbor entry
and broadcast `update_topology`; in both cases recompute at the end. -/
def update (st : DvState) (s1 s2 : Nat) (c : Cost) : DvState × List Ev :=
  if c = ⊤ then
    let topo := topoSet (topoSet st.topology s1 s2 ⊤) s2 s1 ⊤
    let dl := sadd (sadd st.disabled_links (s1, s2)) (s2, s1)
    let nbrs :=
      if s1 = st.myId ∨ s2 = st.myId then
        adel st.neighbors (if s1 = st.myId then s2 else s1)
      else st.neighbors
    let st1 := { st with topology := topo, disabled_links := dl, neighbors := nbrs }
    let evs := (akeys nbrs).filterMap fun nid =>
      if nid ∈ st.nodes then
        some (Ev.send nid (DvMsg.disableLink s1 s2 (st.myId : Int)))
      else none
    (recompute_routing_table st1, evs)
  else
    let topo := topoSet (topoSet st.topology s1 s2 c) s2 s1 c
    let st1 :=
      if s1 = st.myId ∨ s2 = st.myId then
        let nid := if s1 = st.myId then s2 else s1
        { st with topology := topo,
                  neighbors := aset st.neighbors nid c,
                  routing_table := aset st.routing_table nid c,
                  next_hop := aset st.next_hop nid (some nid) }
      else { st with topology := topo }
    let evs := (akeys st1.neighbors).filterMap fun nid =>
      if nid ∈ st.nodes then
        some (Ev.send nid (DvMsg.updateTopology s1 s2 c (st.myId : Int)))
      else none
    (recompute_routing_table st1, evs)

/-- `Router.disable` of `dv.py`: refuse (with an operator error and no
state change) unless the argument is a current neighbor; otherwise mark
the link `∞`, drop the neighbor, broadcast `disable_link`, recompute. -/
def disable (st : DvState) (server_id : Nat) : DvState × List Ev :=
  if (alookup st.neighbors server_id).isNone then (st, [Ev.opError server_id])
  else
    let topo := topoSet (topoSet st.topology st.myId server_id ⊤)
      server_id st.myId ⊤
    let dl := sadd (sadd st.disabled_links (st.myId, server_id))
      (server_id, st.myId)
    let nbrs := adel st.neighbors server_id
    let st1 := { st with topology := topo, disabled_links := dl, neighbors := nbrs }
    let evs := (akeys nbrs).filterMap fun nid =>
      if nid ∈ st.nodes then
        some (Ev.send nid (DvMsg.disableLink st.myId server_id (st.myId : Int)))
      else none
    (recompute_routing_table st1, evs)

/-- The per-entry body of the routing-update loop in
`Router.process_message`: skip the local id, recompute the cost via the
sender from the current table, adopt it only when strictly smaller. -/
def ruFold (myId sid : Nat)
    (acc : List (Nat × Cost) × List (Nat × Option Nat) × Bool)
    (e : Nat × Cost) : List (Nat × Cost) × List (Nat × Option Nat) × Bool :=
  if e.1 = myId then acc
  else
    let n := agetD acc.1 sid ⊤ + e.2
    if n < agetD acc.1 e.1 ⊤ then
      (aset acc.1 e.1 n, aset acc.2.1 e.1 (some sid), true)
    else acc

/-- The routing-update branch of `Router.process_message`: fold the received
vector through the table and, when anything changed, trigger `step`. -/
def processRU (st : DvState) (sid : Nat) (tbl : List (Nat × Cost)) :
    DvState × List Ev :=
  let r := tbl.foldl (ruFold st.myId sid) (st.routing_table, st.next_hop, false)
  let st1 := { st with routing_table := r.1, next_hop := r.2.1 }
  if r.2.2 then (st1, (step st1).2) else (st1, [])

/-- `Router.process_message` of `dv.py`.  The packet counter is incremented
first, before any validation or dispatch; then the message is dispatched on
its (decoded) shape exactly as the Python `if` chain does. -/
def process_message (st : DvState) (m : DvMsg) : DvState × List Ev :=
  let st := { st with
    number_of_packets_received := st.number_of_packets_received + 1 }
  match m with
  | .serverCrash cid =>
      let topo :=
        if (alookup st.topology cid).isSome then topoDelNode st.topology cid
        else st.topology
      let nbrs := adel st.neighbors cid
      (recompute_routing_table { st with topology := topo, neighbors := nbrs }, [])
  | .updateTopology s1 s2 c _o =>
      if (s1, s2, c) ∈ st.processed_updates then (st, [])
      else
        update { st with processed_updates := st.processed_updates ++ [(s1, s2, c)] }
          s2 s1 c
  | .disableLink s1 s2 o =>
      if (s1, s2) ∈ st.disabled_links then (st, [])
      else
        let dl := sadd (sadd st.disabled_links (s1, s2)) (s2, s1)
        let topo := topoSet (topoSet st.topology s1 s2 ⊤) s2 s1 ⊤
        let st1 := { st with disabled_links := dl, topology := topo }
        let evs :=
          if o ≠ (st.myId : Int) then broadcast_topology_update st1 s1 s2 ⊤ o
          else []
        (recompute_routing_table st1, evs)
  | .routingUpdate sid tbl =>
      if alookup st.neighbors sid = some ⊤ then (st, [])
      else processRU st sid tbl
  | .unknown => (st, [])

/-- `Router.handle_client` of `dv.py`: the peer address is never consulted;
an unparseable (or empty) frame is dropped before `process_message` runs. -/
def handle_client (st : DvState) (peer : String × Nat) (m : Option DvMsg) :
    DvState × List Ev :=
  match m with
  | none => (st, [])
  | some msg => process_message st msg

/-- The `packets` branch of `Router.run` in `dv.py`: print the counter,
touch nothing. -/
def packetsCmd (st : DvState) : DvState × List Ev :=
  (st, [Ev.printPackets st.number_of_packets_received])

/-- One advertiser tick of `dv.py` (`start_periodic_updates`): after the
sleep the thread simply calls `step`. -/
def tick (st : DvState) : DvState := (step st).1

/-- Follows the spec's words (I2), for comparison with the code: the
claimed recomputation `best[d] = min over neighbors n of
(neighborLinkCost[n] + neighborView[n][d])`, empty min `∞`. -/
def i2MinOverNeighbors (neighbors : List (Nat × Cost))
    (view : Nat → Nat → Cost) (d : Nat) : Cost :=
  neighbors.foldl (fun acc p => min acc (p.2 + view p.1 d)) ⊤

/-- Follows the spec's words, for comparison with the code: the recompute
operation as claimed, applying the relaxation exactly once across all
destinations instead of iterating. -/
def recomputeSinglePass (st : DvState) : DvState :=
  let p0 := bfInit st.myId st.nodes (st.routing_table, st.next_hop)
  let p1 := relaxPass st.myId st.topology p0
  let p2 := fixUnreach p1
  { st with routing_table := p2.1, next_hop := p2.2 }

/-- The mutable state of `RouterServer.py`'s `Router` draft: routing table
entries carry `(next_hop, cost)`, neighbor entries carry `(cost, ip, port)`. -/
structure RsState : Type where
  server_id : Nat
  routing_table : List (Nat × (Option Nat × Cost))
  neighbors : List (Nat × (Cost × String × Nat))
  packet_counter : Nat
deriving DecidableEq

/-- A decoded `RouterServer.py` update message: the sender's port and ip as
carried in the payload, then `(dest, next_hop, cost)` entries. -/
structure RsMsg : Type where
  sender_port : Nat
  sender_ip : String
  entries : List (Nat × Nat × Cost)
deriving DecidableEq

/-- The sender-identification loop of `process_update_message`: the first
neighbor whose recorded `(ip, port)` equals the pair from the payload. -/
def rsFindSender : List (Nat × (Cost × String × Nat)) → String → Nat → Option Nat
  | [], _, _ => none
  | p :: t, ip, port =>
      if p.2.2.1 = ip ∧ p.2.2.2 = port then some p.1 else rsFindSender t ip port

/-- The inner loop of `recalculate_routing_table`: the cheapest
`neighbor cost + neighbor's table cost` over the neighbors, first minimum
winning (strict comparison); the loop body never reads the destination. -/
def rsBest (r : List (Nat × (Option Nat × Cost)))
    (nbrs : List (Nat × (Cost × String × Nat))) : Option Nat × Cost :=
  nbrs.foldl
    (fun acc p =>
      match alookup r p.1 with
      | none => acc
      | some e =>
          let total := p.2.1 + e.2
          if total < acc.2 then (some p.1, total) else acc)
    (none, (⊤ : Cost))

/-- `Router.recalculate_routing_table` of `RouterServer.py`: reset every
route that is neither self nor a neighbor, then rewrite each non-self
destination with the best neighbor according to `rsBest`. -/
def rsRecalc (st : RsState) : RsState :=
  let rt1 := (akeys st.routing_table).foldl
    (fun r d =>
      if d ≠ st.server_id ∧ (alookup st.neighbors d).isNone then
        aset r d (none, ⊤)
      else r)
    st.routing_table
  let rt2 := (akeys rt1).foldl
    (fun r d =>
      if d = st.server_id then r
      else
        let b := rsBest r st.neighbors
        if b.2 < ⊤ then aset r d b else r)
    rt1
  { st with routing_table := rt2 }

/-- `Router.process_update_message` of `RouterServer.py`: the sender is
identified only by the `(ip, port)` carried in the payload; an unmatched
pair drops the message with no state change.  Otherwise entries are folded
into the table (strict improvement, except the special own-id branch),
followed by a recalculation when anything changed. -/
def process_update_message (st : RsState) (m : RsMsg) : RsState :=
  match rsFindSender st.neighbors m.sender_ip m.sender_port with
  | none => st
  | some sid =>
      let sender_cost := (agetD st.routing_table sid (none, ⊤)).2
      let r := m.entries.foldl
        (fun (acc : List (Nat × (Option Nat × Cost)) × Bool) e =>
          if e.1 = sid then acc
          else if e.1 = st.server_id then
            if (agetD acc.1 sid (none, ⊤)).2 ≠ e.2.2 then
              (aset acc.1 sid (some sid, e.2.2), true)
            else acc
          else
            let n := sender_cost + e.2.2
            if (alookup acc.1 e.1).isNone ∨ n < (agetD acc.1 e.1 (none, ⊤)).2 then
              (aset acc.1 e.1 (some sid, n), true)
            else acc)
        (st.routing_table, false)
      let st1 := { st with routing_table := r.1 }
      if r.2 then rsRecalc st1 else st1

/-- `Router.packets` of `RouterServer.py`: print the counter, then reset
it to zero. -/
def rsPackets (st : RsState) : RsState × List Ev :=
  ({ st with packet_counter := 0 }, [Ev.printPackets st.packet_counter])

/-- `Router.disable` of `RouterServer.py`: on a neighbor, set its link and
table costs to `∞` and recalculate; on a non-neighbor, print a failure and
change nothing. -/
def rsDisable (st : RsState) (nid : Nat) : RsState :=
  match alookup st.neighbors nid with
  | some info =>
      let nbrs := aset st.neighbors nid (⊤, info.2.1, info.2.2)
      let rt := aset st.routing_table nid
        ((agetD st.routing_table nid (none, ⊤)).1, ⊤)
      rsRecalc { st with neighbors := nbrs, routing_table := rt }
  | none => st

/-- Well-formedness of a `dv.py` router state, as established by
`load_topology` and preserved by in-topology operations: the router's own
id is a node, every id in the topology dict is a node and every stored
cost is non-negative, and every `next_hop` key is a node.  Inside this
region the embedding and the Python agree (outside it the Python raises
`KeyError` mid-operation). -/
def DvWF (st : DvState) : Prop :=
  st.myId ∈ st.nodes ∧
  (∀ p ∈ st.topology, p.1 ∈ st.nodes ∧ ∀ q ∈ p.2, q.1 ∈ st.nodes ∧ (0 : Cost) ≤ q.2) ∧
  (∀ p ∈ st.next_hop, p.1 ∈ st.nodes)

instance (st : DvState) : Decidable (DvWF st) := by
  unfold DvWF
  infer_instance

/-- The invariant carried through the Bellman-Ford folds of
`recompute_routing_table`: self entries fixed at `0` / self, table values
non-negative on nodes, all nodes present as table keys, and next-hop keys
confined to nodes and the pre-existing keys `K0`. -/
def BFInv (myId : Nat) (nodes K0 : List Nat)
    (p : List (Nat × Cost) × List (Nat × Option Nat)) : Prop :=
  agetD p.1 myId ⊤ = 0 ∧
  agetD p.2 myId none = some myId ∧
  (∀ k ∈ nodes, (0 : Cost) ≤ agetD p.1 k ⊤) ∧
  (∀ k ∈ nodes, k ∈ akeys p.1) ∧
  (∀ k ∈ akeys p.2, k ∈ nodes ∨ k ∈ K0)

/-- A small concrete router state for router 1 in the seed topology
`{(1,2,2), (2,3,3), (1,3,7)}` with the direct 1-3 link updated to cost 5,
links listed in the order `(1,3,5), (1,2,2), (2,3,3)` (so the topology
dict's insertion order puts the 1-3 edge first). -/
def exA : DvState where
  myId := 1
  nodes := [1, 2, 3]
  nodeAddr := [(1, ("h1", 1001)), (2, ("h2", 1002)), (3, ("h3", 1003))]
  routing_table := [(1, 0), (3, 5), (2, 2)]
  next_hop := [(1, some 1), (3, some 3), (2, some 2)]
  neighbors := [(3, 5), (2, 2)]
  topology := [(1, [(3, 5), (2, 2)]), (3, [(1, 5), (2, 3)]), (2, [(1, 2), (3, 3)])]
  number_of_packets_received := 0
  processed_updates := []
  disabled_links := []
  running := true

/-- A concrete router state for router 1 in the line topology
`1 -2- 2 -3- 3`, with the link lines ordered `(2,3,3), (1,2,2)` so that in
the topology dict's iteration order the `2 → 3` edge precedes `1 → 2`
(one relaxation pass then leaves destination 3 unreached). -/
def exB : DvState where
  myId := 1
  nodes := [1, 2, 3]
  nodeAddr := [(1, ("h1", 1001)), (2, ("h2", 1002)), (3, ("h3", 1003))]
  routing_table := [(1, 0), (2, 2), (3, ⊤)]
  next_hop := [(1, some 1), (2, some 2), (3, none)]
  neighbors := [(2, 2)]
  topology := [(2, [(3, 3), (1, 2)]), (3, [(2, 3)]), (1, [(2, 2)])]
  number_of_packets_received := 0
  processed_updates := []
  disabled_links := []
  running := true

/-- A concrete `RouterServer.py` state with a nonzero packet counter. -/
def exRs : RsState where
  server_id := 1
  routing_table := [(1, (some 1, 0)), (2, (some 2, 3))]
  neighbors := [(2, (3, "h2", 1002))]
  packet_counter := 5

/-! ### Association-list lemmas -/

theorem alookup_aset {α : Type} (l : List (Nat × α)) (k x : Nat) (v : α) :
    alookup (aset l k v) x = if x = k then some v else alookup l x := by
  induction l with
  | nil =>
    simp only [aset, alookup]
    rcases eq_or_ne x k with h | h
    · rw [if_pos h.symm, if_pos h]
    · rw [if_neg (Ne.symm h), if_neg h]
  | cons hd t ih =>
    rcases hd with ⟨k', v'⟩
    simp only [aset]
    by_cases h1 : k' = k
    · rw [if_pos h1]
      rcases eq_or_ne x k with h2 | h2
      · simp only [alookup, if_pos h2.symm, if_pos h2]
      · simp only [alookup, if_neg (Ne.symm h2), if_neg h2,
          if_neg (h1 ▸ Ne.symm h2)]
    · rw [if_neg h1]
      simp only [alookup, ih]
      by_cases h2 : k' = x
      · rw [if_pos h2, if_neg (fun hh : x = k => h1 (h2.trans hh)), if_pos h2]
      · rw [if_neg h2]
        rcases eq_or_ne x k with h3 | h3
        · rw [if_pos h3, if_pos h3]
        · rw [if_neg h3, if_neg h3, if_neg h2]

theorem agetD_aset {α : Type} (l : List (Nat × α)) (k x : Nat) (v d : α) :
    agetD (aset l k v) x d = if x = k then v else agetD l x d := by
  simp only [agetD, alookup_aset]
  split_ifs <;> rfl

theorem akeys_cons {α : Type} (k : Nat) (v : α) (t : List (Nat × α)) :
    akeys ((k, v) :: t) = k :: akeys t := rfl

theorem alookup_eq_none_iff {α : Type} (l : List (Nat × α)) (x : Nat) :
    alookup l x = none ↔ x ∉ akeys l := by
  induction l with
  | nil => simp [alookup, akeys]
  | cons hd t ih =>
    rcases hd with ⟨k', v'⟩
    rw [akeys_cons]
    simp only [List.mem_cons]
    by_cases h : k' = x
    · subst h
      simp [alookup]
    · simp only [alookup, if_neg h, ih]
      constructor
      · intro h1 h2
        rcases h2 with h2 | h2
        · exact h h2.symm
        · exact h1 h2
      · intro h1 h2
        exact h1 (Or.inr h2)

theorem mem_akeys_aset {α : Type} (l : List (Nat × α)) (k x : Nat) (v : α) :
    x ∈ akeys (aset l k v) ↔ x = k ∨ x ∈ akeys l := by
  induction l with
  | nil => simp [aset, akeys]
  | cons hd t ih =>
    rcases hd with ⟨k', v'⟩
    simp only [aset]
    by_cases h1 : k' = k
    · rw [if_pos h1, akeys_cons, akeys_cons]
      subst h1
      simp only [List.mem_cons]
      tauto
    · rw [if_neg h1, akeys_cons, akeys_cons]
      simp only [List.mem_cons, ih]
      constructor
      · rintro (h | h | h)
        · exact Or.inr (Or.inl h)
        · exact Or.inl h
        · exact Or.inr (Or.inr h)
      · rintro (h | h | h)
        · exact Or.inr (Or.inl h)
        · exact Or.inl h
        · exact Or.inr (Or.inr h)

/-! ### Fold helpers -/

theorem foldl_inv {α β : Type} {P : α → Prop} {Q : β → Prop} (f : α → β → α)
    (hf : ∀ a b, P a → Q b → P (f a b)) :
    ∀ (l : List β) (a : α), (∀ b ∈ l, Q b) → P a → P (l.foldl f a)
  | [], _, _, pa => pa
  | b :: t, a, hl, pa =>
      foldl_inv f hf t (f a b)
        (fun x hx => hl x (List.mem_cons_of_mem _ hx))
        (hf a b pa (hl b (List.mem_cons_self _ _)))

theorem foldl_range_iterate {α : Type} (f : α → α) (n : Nat) (x : α) :
    (List.range n).foldl (fun a _ => f a) x = f^[n] x := by
  induction n with
  | zero => simp
  | succ m ih =>
    rw [List.range_succ, List.foldl_append, ih, List.foldl_cons,
      List.foldl_nil, Function.iterate_succ_apply']

/-! ### Frame lemmas -/

theorem recompute_neighbors (st : DvState) :
    (recompute_routing_table st).neighbors = st.neighbors := rfl

theorem recompute_packets (st : DvState) :
    (recompute_routing_table st).number_of_packets_received =
      st.number_of_packets_received := rfl

theorem recompute_processed (st : DvState) :
    (recompute_routing_table st).processed_updates = st.processed_updates := rfl

theorem update_packets (st : DvState) (a b : Nat) (c : Cost) :
    (update st a b c).1.number_of_packets_received =
      st.number_of_packets_received := by
  unfold update
  split_ifs <;> rfl

theorem update_processed (st : DvState) (a b : Nat) (c : Cost) :
    (update st a b c).1.processed_updates = st.processed_updates := by
  unfold update
  split_ifs <;> rfl

theorem processRU_packets (st : DvState) (sid : Nat) (tbl : List (Nat × Cost)) :
    (processRU st sid tbl).1.number_of_packets_received =
      st.number_of_packets_received := by
  simp only [processRU]
  split_ifs <;> rfl

theorem processRU_neighbors (st : DvState) (sid : Nat) (tbl : List (Nat × Cost)) :
    (processRU st sid tbl).1.neighbors = st.neighbors := by
  simp only [processRU]
  split_ifs <;> rfl

theorem process_message_packets (st : DvState) (m : DvMsg) :
    (process_message st m).1.number_of_packets_received =
      st.number_of_packets_received + 1 := by
  cases m with
  | serverCrash cid => rfl
  | updateTopology s1 s2 c o =>
      simp only [process_message]
      split_ifs with h
      · rfl
      · rw [update_packets]
  | disableLink s1 s2 o =>
      simp only [process_message]
      split_ifs <;> rfl
  | routingUpdate sid tbl =>
      simp only [process_message]
      split_ifs with h
      · rfl
      · rw [processRU_packets]
  | unknown => rfl

theorem disable_packets (st : DvState) (sid : Nat) :
    (disable st sid).1.number_of_packets_received =
      st.number_of_packets_received := by
  simp only [disable]
  split_ifs <;> rfl

theorem ruFold_top (myId sid : Nat) (rt : List (Nat × Cost))
    (nh : List (Nat × Option Nat)) (tbl : List (Nat × Cost))
    (h : agetD rt sid ⊤ = ⊤) :
    tbl.foldl (ruFold myId sid) (rt, nh, false) = (rt, nh, false) := by
  induction tbl with
  | nil => rfl
  | cons e t ih =>
    rw [List.foldl_cons]
    have hstep : ruFold myId sid (rt, nh, false) e = (rt, nh, false) := by
      simp only [ruFold]
      split_ifs with h1 h2
      · rfl
      · exfalso
        rw [h, WithTop.top_add] at h2
        exact not_top_lt h2
      · rfl
    rw [hstep, ih]

theorem foldl_mono_proj {α β : Type} (g : α → List (Nat × Cost)) (f : α → β → α)
    (hf : ∀ a b d, agetD (g (f a b)) d ⊤ ≤ agetD (g a) d ⊤) :
    ∀ (l : List β) (a : α) (d : Nat),
      agetD (g (l.foldl f a)) d ⊤ ≤ agetD (g a) d ⊤
  | [], _, _ => le_refl _
  | b :: t, a, d => le_trans (foldl_mono_proj g f hf t (f a b) d) (hf a b d)

theorem ruFold_mono_step (myId sid : Nat)
    (acc : List (Nat × Cost) × List (Nat × Option Nat) × Bool)
    (e : Nat × Cost) (d : Nat) :
    agetD (ruFold myId sid acc e).1 d ⊤ ≤ agetD acc.1 d ⊤ := by
  simp only [ruFold]
  split_ifs with h1 h2
  · exact le_refl _
  · rw [agetD_aset]
    split_ifs with h3
    · subst h3
      exact le_of_lt h2
    · exact le_refl _
  · exact le_refl _

theorem mem_akeys_of_lookup {α : Type} (l : List (Nat × α)) (x : Nat)
    (h : alookup l x ≠ none) : x ∈ akeys l := by
  by_contra hc
  exact h ((alookup_eq_none_iff l x).mpr hc)

theorem bfInit_rt_lookup (myId : Nat) (nodes : List Nat) (k : Nat) :
    ∀ p : List (Nat × Cost) × List (Nat × Option Nat),
    alookup (bfInit myId nodes p).1 k =
      if k ∈ nodes then some (if k = myId then 0 else ⊤) else alookup p.1 k := by
  induction nodes with
  | nil => intro p; simp [bfInit]
  | cons nd t ih =>
    intro p
    have hstep : bfInit myId (nd :: t) p = bfInit myId t
        (if nd = myId then (aset p.1 nd 0, aset p.2 nd (some myId))
         else (aset p.1 nd ⊤, aset p.2 nd none)) := rfl
    rw [hstep, ih]
    by_cases hm : k ∈ t
    · rw [if_pos hm, if_pos (List.mem_cons_of_mem _ hm)]
    · rw [if_neg hm]
      by_cases hk : k = nd
      · rw [if_pos (List.mem_cons.mpr (Or.inl hk))]
        by_cases hmy : nd = myId
        · simp [hk, hmy, alookup_aset]
        · simp [hk, hmy, alookup_aset]
      · have hknd : k ∉ nd :: t := by
          simp [List.mem_cons, hk, hm]
        rw [if_neg hknd]
        by_cases hmy : nd = myId
        · have hkm : ¬ k = myId := fun hh => hk (hh.trans hmy.symm)
          simp [hmy, alookup_aset, hk, hkm]
        · simp [hmy, alookup_aset, hk]

theorem bfInit_nh_lookup (myId : Nat) (nodes : List Nat) (k : Nat) :
    ∀ p : List (Nat × Cost) × List (Nat × Option Nat),
    alookup (bfInit myId nodes p).2 k =
      if k ∈ nodes then some (if k = myId then some myId else none)
      else alookup p.2 k := by
  induction nodes with
  | nil => intro p; simp [bfInit]
  | cons nd t ih =>
    intro p
    have hstep : bfInit myId (nd :: t) p = bfInit myId t
        (if nd = myId then (aset p.1 nd 0, aset p.2 nd (some myId))
         else (aset p.1 nd ⊤, aset p.2 nd none)) := rfl
    rw [hstep, ih]
    by_cases hm : k ∈ t
    · rw [if_pos hm, if_pos (List.mem_cons_of_mem _ hm)]
    · rw [if_neg hm]
      by_cases hk : k = nd
      · rw [if_pos (List.mem_cons.mpr (Or.inl hk))]
        by_cases hmy : nd = myId
        · simp [hk, hmy, alookup_aset]
        · simp [hk, hmy, alookup_aset]
      · have hknd : k ∉ nd :: t := by
          simp [List.mem_cons, hk, hm]
        rw [if_neg hknd]
        by_cases hmy : nd = myId
        · have hkm : ¬ k = myId := fun hh => hk (hh.trans hmy.symm)
          simp [hmy, alookup_aset, hk, hkm]
        · simp [hmy, alookup_aset, hk]

theorem bfInit_inv (myId : Nat) (nodes : List Nat)
    (p : List (Nat × Cost) × List (Nat × Option Nat)) (hmy : myId ∈ nodes) :
    BFInv myId nodes (akeys p.2) (bfInit myId nodes p) := by
  unfold BFInv
  refine ⟨?_, ?_, ?_, ?_, ?_⟩
  · unfold agetD
    rw [bfInit_rt_lookup, if_pos hmy, if_pos rfl]
    rfl
  · unfold agetD
    rw [bfInit_nh_lookup, if_pos hmy, if_pos rfl]
    rfl
  · intro k hk
    unfold agetD
    rw [bfInit_rt_lookup, if_pos hk]
    by_cases h : k = myId
    · rw [if_pos h]
      exact le_refl _
    · rw [if_neg h]
      exact le_top
  · intro k hk
    refine mem_akeys_of_lookup _ _ ?_
    rw [bfInit_rt_lookup, if_pos hk]
    simp
  · intro k hk
    by_cases hn : k ∈ nodes
    · exact Or.inl hn
    · refine Or.inr ?_
      refine mem_akeys_of_lookup _ _ ?_
      intro hnone
      have hl : alookup (bfInit myId nodes p).2 k = alookup p.2 k := by
        rw [bfInit_nh_lookup, if_neg hn]
      rw [← hl] at hnone
      exact ((alookup_eq_none_iff _ _).mp hnone) hk

theorem relaxEdge_inv (myId : Nat) (nodes K0 : List Nat)
    (p : List (Nat × Cost) × List (Nat × Option Nat)) (fr dst : Nat) (c : Cost)
    (hfr : fr ∈ nodes) (hdst : dst ∈ nodes) (hc : (0 : Cost) ≤ c)
    (hp : BFInv myId nodes K0 p) :
    BFInv myId nodes K0 (relaxEdge myId p fr dst c) := by
  obtain ⟨h1, h2, h3, h4, h5⟩ := hp
  by_cases hc1 : c = ⊤
  · have hrel : relaxEdge myId p fr dst c = p := by
      simp only [relaxEdge, if_pos hc1]
    rw [hrel]
    exact ⟨h1, h2, h3, h4, h5⟩
  · have hrel : relaxEdge myId p fr dst c =
        if agetD p.1 fr ⊤ + c < agetD p.1 dst ⊤ then
          (aset p.1 dst (agetD p.1 fr ⊤ + c),
           aset p.2 dst (if myId = fr then some dst else agetD p.2 fr none))
        else p := by
      simp only [relaxEdge, if_neg hc1]
    rw [hrel]
    by_cases hlt : agetD p.1 fr ⊤ + c < agetD p.1 dst ⊤
    · rw [if_pos hlt]
      have hn : (0 : Cost) ≤ agetD p.1 fr ⊤ + c := add_nonneg (h3 fr hfr) hc
      have hdm : dst ≠ myId := by
        intro hdd
        rw [hdd, h1] at hlt
        exact absurd hlt (not_lt.mpr hn)
      refine ⟨?_, ?_, ?_, ?_, ?_⟩
      · show agetD (aset p.1 dst (agetD p.1 fr ⊤ + c)) myId ⊤ = 0
        rw [agetD_aset, if_neg (fun hh => hdm hh.symm)]
        exact h1
      · show agetD (aset p.2 dst _) myId none = some myId
        rw [agetD_aset, if_neg (fun hh => hdm hh.symm)]
        exact h2
      · intro k hk
        show (0 : Cost) ≤ agetD (aset p.1 dst (agetD p.1 fr ⊤ + c)) k ⊤
        rw [agetD_aset]
        split_ifs with h6
        · exact hn
        · exact h3 k hk
      · intro k hk
        show k ∈ akeys (aset p.1 dst (agetD p.1 fr ⊤ + c))
        exact (mem_akeys_aset _ _ _ _).mpr (Or.inr (h4 k hk))
      · intro k hk
        have hk2 : k ∈ akeys (aset p.2 dst
            (if myId = fr then some dst else agetD p.2 fr none)) := hk
        rcases (mem_akeys_aset _ _ _ _).mp hk2 with h6 | h6
        · rw [h6]
          exact Or.inl hdst
        · exact h5 k h6
    · rw [if_neg hlt]
      exact ⟨h1, h2, h3, h4, h5⟩

theorem relaxPass_inv (myId : Nat) (nodes K0 : List Nat) (topo : Topo)
    (htopo : ∀ e ∈ topo, e.1 ∈ nodes ∧ ∀ q ∈ e.2, q.1 ∈ nodes ∧ (0 : Cost) ≤ q.2)
    (p : List (Nat × Cost) × List (Nat × Option Nat))
    (hp : BFInv myId nodes K0 p) :
    BFInv myId nodes K0 (relaxPass myId topo p) := by
  unfold relaxPass
  refine @foldl_inv _ _ (BFInv myId nodes K0)
    (fun e => e.1 ∈ nodes ∧ ∀ q ∈ e.2, q.1 ∈ nodes ∧ (0 : Cost) ≤ q.2)
    _ ?_ topo p htopo hp
  intro a e ha he
  refine @foldl_inv _ _ (BFInv myId nodes K0)
    (fun q => q.1 ∈ nodes ∧ (0 : Cost) ≤ q.2)
    _ ?_ e.2 a he.2 ha
  intro a2 e2 ha2 he2
  exact relaxEdge_inv myId nodes K0 a2 e.1 e2.1 e2.2 he.1 he2.1 he2.2 ha2

theorem iterate_inv {α : Type} (P : α → Prop) (f : α → α)
    (hf : ∀ a, P a → P (f a)) :
    ∀ (n : Nat) (a : α), P a → P (f^[n] a) := by
  intro n
  induction n with
  | zero => intro a ha; exact ha
  | succ m ih =>
      intro a ha
      rw [Function.iterate_succ_apply]
      exact ih _ (hf a ha)

theorem fixFold_getD (rt : List (Nat × Cost)) (L : List Nat) (x : Nat) :
    ∀ h : List (Nat × Option Nat),
    agetD (L.foldl
        (fun h2 d => if agetD rt d ⊤ = ⊤ then aset h2 d none else h2) h) x none =
      if x ∈ L ∧ agetD rt x ⊤ = ⊤ then none else agetD h x none := by
  induction L with
  | nil => intro h; simp
  | cons d t ih =>
    intro h
    rw [List.foldl_cons, ih]
    by_cases hx : x ∈ t ∧ agetD rt x ⊤ = ⊤
    · rw [if_pos hx, if_pos ⟨List.mem_cons_of_mem _ hx.1, hx.2⟩]
    · rw [if_neg hx]
      by_cases hd : x = d
      · subst hd
        by_cases htop : agetD rt x ⊤ = ⊤
        · have hc2 : x ∈ x :: t ∧ agetD rt x ⊤ = ⊤ :=
            ⟨List.mem_cons_self _ _, htop⟩
          rw [if_pos hc2, if_pos htop, agetD_aset, if_pos rfl]
        · have hc2 : ¬(x ∈ x :: t ∧ agetD rt x ⊤ = ⊤) := fun hh => htop hh.2
          rw [if_neg hc2, if_neg htop]
      · have hcond : ¬(x ∈ d :: t ∧ agetD rt x ⊤ = ⊤) := by
          intro hh
          rcases List.mem_cons.mp hh.1 with h1 | h1
          · exact hd h1
          · exact hx ⟨h1, hh.2⟩
        rw [if_neg hcond]
        by_cases htop : agetD rt d ⊤ = ⊤
        · rw [if_pos htop, agetD_aset, if_neg hd]
        · rw [if_neg htop]

/-! ### Claim theorems -/

/-- C6: `disable` on a server id that is not a current neighbor reports an
error to the operator and mutates no state at all: the resulting state
(routing table, next hops, neighbor set, topology view, disabled-link set
and the `running` flag included) is exactly the input state, so the
dispatcher loop continues. -/
theorem C6_disable_non_neighbor_is_noop (st : DvState) (sid : Nat)
    (h : alookup st.neighbors sid = none) :
    disable st sid = (st, [Ev.opError sid]) := by
  simp only [disable, h, Option.isNone_none, if_pos]

theorem C6_witness :
    alookup exA.neighbors 9 = none ∧ disable exA 9 = (exA, [Ev.opError 9]) :=
  ⟨by decide, C6_disable_non_neighbor_is_noop exA 9 (by decide)⟩

/-- C7: processing a `link-update` (`update_topology`) control message is
at-most-once per `(a, b, newCost)` triple: after a first processing of the
triple, processing the same triple again (any origin) leaves every routing
field unchanged — only the packet counter is bumped — and propagates
nothing. -/
theorem C7_link_update_at_most_once (st : DvState) (s1 s2 : Nat) (c : Cost)
    (o1 o2 : Int) :
    process_message (process_message st (DvMsg.updateTopology s1 s2 c o1)).1
        (DvMsg.updateTopology s1 s2 c o2) =
      ({ (process_message st (DvMsg.updateTopology s1 s2 c o1)).1 with
          number_of_packets_received :=
            (process_message st
              (DvMsg.updateTopology s1 s2 c o1)).1.number_of_packets_received
              + 1 },
        []) := by
  have hmem : (s1, s2, c) ∈
      (process_message st (DvMsg.updateTopology s1 s2 c o1)).1.processed_updates := by
    simp only [process_message]
    split_ifs with h
    · exact h
    · rw [update_processed]
      simp
  conv_lhs => rw [process_message]
  split_ifs with h2
  · rfl
  · exact absurd hmem h2

/-- C8: there is no missed-interval failure detector in the code: an
advertiser tick (the body of `start_periodic_updates`, i.e. `step`) mutates
no state at all — iterating ticks any number of times is the identity — and
an inbound advertisement never changes the neighbor cost map, so no
neighbor is ever marked failed (`∞`) by the passage of silent intervals. -/
theorem C8_no_failure_detector :
    (∀ (st : DvState) (k : Nat), tick^[k] st = st) ∧
    (∀ (st : DvState) (sid : Nat) (tbl : List (Nat × Cost)),
      (process_message st (DvMsg.routingUpdate sid tbl)).1.neighbors =
        st.neighbors) := by
  constructor
  · intro st k
    induction k with
    | zero => rfl
    | succ n ih =>
        rw [Function.iterate_succ_apply, show tick st = st from rfl, ih]
  · intro st sid tbl
    simp only [process_message]
    split_ifs with h
    · rfl
    · rw [processRU_neighbors]

theorem C8_counterexample :
    tick^[3] exA = exA ∧
    agetD ((tick^[3]) exA).neighbors 2 ⊤ = (2 : Cost) ∧
    (2 : Cost) ≠ ⊤ :=
  ⟨rfl, by decide, by decide⟩

/-- C9: in `dv.py` the `packets` command only prints the counter and
changes no state, and the counter is monotone across the operations
(`process_message` adds one, `disable`/`update` preserve it, a tick is the
identity); but in the `RouterServer.py` draft the `packets` command resets
the counter to zero after printing, so monotonicity fails there. -/
theorem C9_packets_print_and_counter :
    (∀ st : DvState, (packetsCmd st).1 = st ∧
      (packetsCmd st).2 = [Ev.printPackets st.number_of_packets_received]) ∧
    (∀ (st : DvState) (m : DvMsg),
      st.number_of_packets_received ≤
        (process_message st m).1.number_of_packets_received) ∧
    (∀ (st : DvState) (sid : Nat),
      (disable st sid).1.number_of_packets_received =
        st.number_of_packets_received) ∧
    (∀ (st : DvState) (a b : Nat) (c : Cost),
      (update st a b c).1.number_of_packets_received =
        st.number_of_packets_received) ∧
    (∀ st : DvState, tick st = st) ∧
    (∀ rs : RsState, (rsPackets rs).1.packet_counter = 0) := by
  refine ⟨fun st => ⟨rfl, rfl⟩, fun st m => ?_, disable_packets,
    update_packets, fun st => rfl, fun rs => rfl⟩
  rw [process_message_packets]
  exact Nat.le_add_right _ 1

theorem C9_counterexample :
    exRs.packet_counter = 5 ∧ (rsPackets exRs).1.packet_counter = 0 ∧
    ¬ (5 : Nat) ≤ 0 :=
  ⟨rfl, rfl, by decide⟩

/-- C3: the packet counter counts every successfully parsed (JSON-decoded)
inbound message — `process_message` increments it by exactly one before any
validation, including messages whose sender is unknown to the topology;
only an unparseable or empty frame is dropped without counting.  A parsed
advertisement from a sender with no routing-table and no neighbor entry
leaves all routing state unchanged (only the counter moves) and sends
nothing. -/
theorem C3_packets_counts_parsed :
    (∀ (st : DvState) (a : String × Nat), handle_client st a none = (st, [])) ∧
    (∀ (st : DvState) (m : DvMsg),
      (process_message st m).1.number_of_packets_received =
        st.number_of_packets_received + 1) ∧
    (∀ (st : DvState) (sid : Nat) (tbl : List (Nat × Cost)),
      alookup st.routing_table sid = none →
      alookup st.neighbors sid = none →
      process_message st (DvMsg.routingUpdate sid tbl) =
        ({ st with number_of_packets_received :=
            st.number_of_packets_received + 1 }, [])) := by
  refine ⟨fun st a => rfl, process_message_packets, ?_⟩
  intro st sid tbl hrt hn
  have hget : agetD st.routing_table sid ⊤ = (⊤ : Cost) := by
    unfold agetD
    rw [hrt]
    rfl
  simp only [process_message]
  rw [if_neg (by simp [hn])]
  simp only [processRU]
  rw [ruFold_top st.myId sid st.routing_table st.next_hop tbl hget]
  simp

theorem C3_witness :
    alookup exB.routing_table 9 = none ∧ alookup exB.neighbors 9 = none ∧
    process_message exB (DvMsg.routingUpdate 9 [(2, 1)]) =
      ({ exB with number_of_packets_received :=
          exB.number_of_packets_received + 1 }, []) :=
  ⟨by decide, by decide,
    C3_packets_counts_parsed.2.2 exB 9 [(2, 1)] (by decide) (by decide)⟩

theorem C3_counterexample :
    (9 ∉ exA.nodes) ∧ alookup exA.topology 9 = none ∧
    (process_message exA (DvMsg.routingUpdate 9 [(2, 1)])).1.number_of_packets_received
      = exA.number_of_packets_received + 1 := by
  decide

/-- C4: neither draft performs the claimed identify-by-id-and-verify-address
check.  In `dv.py` the arrival address never reaches `process_message`, so
the outcome of `handle_client` is identical for any two peer addresses (no
mismatch is ever rejected); in `RouterServer.py` the sender is identified
solely by the `(ip, port)` pair carried in the payload, and a pair matching
no neighbor record drops the message with no state change. -/
theorem C4_no_address_verification :
    (∀ (st : DvState) (a1 a2 : String × Nat) (m : Option DvMsg),
      handle_client st a1 m = handle_client st a2 m) ∧
    (∀ (st : RsState) (m : RsMsg),
      rsFindSender st.neighbors m.sender_ip m.sender_port = none →
      process_update_message st m = st) := by
  constructor
  · intro st a1 a2 m
    cases m <;> rfl
  · intro st m h
    simp only [process_update_message, h]

theorem C4_witness :
    rsFindSender exRs.neighbors ("nosuch") 1 = none ∧
    process_update_message exRs ⟨1, "nosuch", [(3, 1, 4)]⟩ = exRs :=
  ⟨by decide, C4_no_address_verification.2 exRs ⟨1, "nosuch", [(3, 1, 4)]⟩ (by decide)⟩

theorem C4_counterexample :
    alookup exA.nodeAddr 2 = some ("h2", 1002) ∧
    (("evil", 666) : String × Nat) ≠ ("h2", 1002) ∧
    (handle_client exA (("evil", 666)) (some (DvMsg.routingUpdate 2 [(4, 1)]))).1
      ≠ exA := by
  refine ⟨by decide, by decide, by decide⟩

/-- C5 (amended): there is no lowest-neighbor-id tie-break.  The inbound
advertisement path adopts a route only on a strictly smaller cost, so on a
tie (offered cost equal to the current entry) the incumbent route and next
hop are kept unchanged, whatever the ids are; which min-achieving neighbor
`recompute` records depends on topology-dict iteration order. -/
theorem C5_tie_keeps_incumbent (st : DvState) (sid d : Nat) (c : Cost)
    (h : agetD st.routing_table d ⊤ ≤ agetD st.routing_table sid ⊤ + c) :
    (process_message st (DvMsg.routingUpdate sid [(d, c)])).1 =
      { st with number_of_packets_received :=
          st.number_of_packets_received + 1 } := by
  have hfold : [(d, c)].foldl (ruFold st.myId sid)
      (st.routing_table, st.next_hop, false) =
      (st.routing_table, st.next_hop, false) := by
    rw [List.foldl_cons, List.foldl_nil]
    simp only [ruFold]
    split_ifs with h1 h2
    · rfl
    · exact absurd h2 (not_lt.mpr h)
    · rfl
  simp only [process_message]
  split_ifs with hg
  · rfl
  · simp only [processRU]
    rw [hfold]
    simp

theorem C5_witness :
    agetD exA.routing_table 3 ⊤ ≤ agetD exA.routing_table 2 ⊤ + 3 ∧
    (process_message exA (DvMsg.routingUpdate 2 [(3, 3)])).1 =
      { exA with number_of_packets_received :=
          exA.number_of_packets_received + 1 } :=
  ⟨by decide, C5_tie_keeps_incumbent exA 2 3 3 (by decide)⟩

theorem C5_counterexample :
    agetD (recompute_routing_table exA).routing_table 3 ⊤ = (5 : Cost) ∧
    agetD exA.neighbors 3 ⊤ = (5 : Cost) ∧
    agetD exA.neighbors 2 ⊤ + agetD (agetD exA.topology 2 []) 3 ⊤ = (5 : Cost) ∧
    (2 : Nat) < 3 ∧
    agetD (recompute_routing_table exA).next_hop 3 none = some 3 := by
  decide

theorem relaxEdge_mono (myId : Nat)
    (p : List (Nat × Cost) × List (Nat × Option Nat)) (fr dst : Nat) (c : Cost)
    (d : Nat) :
    agetD (relaxEdge myId p fr dst c).1 d ⊤ ≤ agetD p.1 d ⊤ := by
  by_cases hc1 : c = ⊤
  · have hrel : relaxEdge myId p fr dst c = p := by
      simp only [relaxEdge, if_pos hc1]
    rw [hrel]
  · have hrel : relaxEdge myId p fr dst c =
        if agetD p.1 fr ⊤ + c < agetD p.1 dst ⊤ then
          (aset p.1 dst (agetD p.1 fr ⊤ + c),
           aset p.2 dst (if myId = fr then some dst else agetD p.2 fr none))
        else p := by
      simp only [relaxEdge, if_neg hc1]
    rw [hrel]
    by_cases hlt : agetD p.1 fr ⊤ + c < agetD p.1 dst ⊤
    · rw [if_pos hlt]
      show agetD (aset p.1 dst (agetD p.1 fr ⊤ + c)) d ⊤ ≤ agetD p.1 d ⊤
      rw [agetD_aset]
      split_ifs with h3
      · rw [h3]
        exact le_of_lt hlt
      · exact le_refl _
    · rw [if_neg hlt]

theorem relaxPass_mono (myId : Nat) (topo : Topo)
    (p : List (Nat × Cost) × List (Nat × Option Nat)) (d : Nat) :
    agetD (relaxPass myId topo p).1 d ⊤ ≤ agetD p.1 d ⊤ := by
  unfold relaxPass
  refine @foldl_mono_proj _ _ (fun x => x.1) _ ?_ topo p d
  intro a e dd
  refine @foldl_mono_proj _ _ (fun x => x.1) _ ?_ e.2 a dd
  intro a2 e2 dd2
  exact relaxEdge_mono myId a2 e.1 e2.1 e2.2 dd2

/-- C1 (amended): `recompute_routing_table` is not a single application of
the relaxation over neighbor data: it resets the table and then runs the
full-topology relaxation pass `len(nodes) - 1` times within the one
invocation (iterating toward a fixed point over the stored topology map),
each pass only ever lowering routing-table entries. -/
theorem C1_recompute_iterates (st : DvState) :
    recompute_routing_table st =
      { st with
          routing_table := (fixUnreach
            ((fun q => relaxPass st.myId st.topology q)^[st.nodes.length - 1]
              (bfInit st.myId st.nodes (st.routing_table, st.next_hop)))).1,
          next_hop := (fixUnreach
            ((fun q => relaxPass st.myId st.topology q)^[st.nodes.length - 1]
              (bfInit st.myId st.nodes (st.routing_table, st.next_hop)))).2 } ∧
    ∀ (p : List (Nat × Cost) × List (Nat × Option Nat)) (d : Nat),
      agetD (relaxPass st.myId st.topology p).1 d ⊤ ≤ agetD p.1 d ⊤ := by
  constructor
  · rw [show recompute_routing_table st =
        { st with
            routing_table := (fixUnreach
              ((List.range (st.nodes.length - 1)).foldl
                (fun q _ => relaxPass st.myId st.topology q)
                (bfInit st.myId st.nodes (st.routing_table, st.next_hop)))).1,
            next_hop := (fixUnreach
              ((List.range (st.nodes.length - 1)).foldl
                (fun q _ => relaxPass st.myId st.topology q)
                (bfInit st.myId st.nodes (st.routing_table, st.next_hop)))).2 }
      from rfl, foldl_range_iterate]
  · intro p d
    exact relaxPass_mono st.myId st.topology p d

theorem C1_counterexample :
    agetD (recompute_routing_table exB).routing_table 3 ⊤ = (5 : Cost) ∧
    agetD (recomputeSinglePass exB).routing_table 3 ⊤ = (⊤ : Cost) ∧
    i2MinOverNeighbors exB.neighbors (fun _ _ => (⊤ : Cost)) 3 = (⊤ : Cost) ∧
    recompute_routing_table exB ≠ recomputeSinglePass exB := by
  decide

/-- C2: after every invocation of `recompute_routing_table` on a
well-formed state, the local router's own entry is `best[S] = 0` with
`nextHop[S] = S`, and every destination whose best cost is `∞` has next
hop `none`. -/
theorem C2_recompute_self_and_unreachable (st : DvState) (h : DvWF st) :
    agetD (recompute_routing_table st).routing_table st.myId ⊤ = 0 ∧
    agetD (recompute_routing_table st).next_hop st.myId none = some st.myId ∧
    ∀ d, agetD (recompute_routing_table st).routing_table d ⊤ = ⊤ →
      agetD (recompute_routing_table st).next_hop d none = none := by
  obtain ⟨hmy, htopo, hnhwf⟩ := h
  have hInv : BFInv st.myId st.nodes (akeys st.next_hop)
      ((List.range (st.nodes.length - 1)).foldl
        (fun q _ => relaxPass st.myId st.topology q)
        (bfInit st.myId st.nodes (st.routing_table, st.next_hop))) := by
    rw [foldl_range_iterate]
    exact iterate_inv _ _
      (fun a ha => relaxPass_inv st.myId st.nodes _ st.topology htopo a ha)
      _ _ (bfInit_inv st.myId st.nodes _ hmy)
  obtain ⟨h1, h2, h3, h4, h5⟩ := hInv
  have hrt : (recompute_routing_table st).routing_table =
      ((List.range (st.nodes.length - 1)).foldl
        (fun q _ => relaxPass st.myId st.topology q)
        (bfInit st.myId st.nodes (st.routing_table, st.next_hop))).1 := rfl
  have hnh : ∀ x, agetD (recompute_routing_table st).next_hop x none =
      if x ∈ akeys ((List.range (st.nodes.length - 1)).foldl
            (fun q _ => relaxPass st.myId st.topology q)
            (bfInit st.myId st.nodes (st.routing_table, st.next_hop))).1 ∧
          agetD ((List.range (st.nodes.length - 1)).foldl
            (fun q _ => relaxPass st.myId st.topology q)
            (bfInit st.myId st.nodes (st.routing_table, st.next_hop))).1 x ⊤ = ⊤
        then none
        else agetD ((List.range (st.nodes.length - 1)).foldl
          (fun q _ => relaxPass st.myId st.topology q)
          (bfInit st.myId st.nodes (st.routing_table, st.next_hop))).2 x none := by
    intro x
    exact fixFold_getD _ _ x _
  refine ⟨?_, ?_, ?_⟩
  · rw [hrt]
    exact h1
  · rw [hnh st.myId]
    rw [if_neg]
    · exact h2
    · intro hh
      rw [h1] at hh
      exact absurd hh.2 (by decide)
  · intro d hd
    rw [hrt] at hd
    rw [hnh d]
    by_cases hdk : d ∈ akeys ((List.range (st.nodes.length - 1)).foldl
        (fun q _ => relaxPass st.myId st.topology q)
        (bfInit st.myId st.nodes (st.routing_table, st.next_hop))).1
    · rw [if_pos ⟨hdk, hd⟩]
    · rw [if_neg (fun hh => hdk hh.1)]
      have hdn : d ∉ st.nodes := fun hh => hdk (h4 d hh)
      have hnot : d ∉ akeys ((List.range (st.nodes.length - 1)).foldl
          (fun q _ => relaxPass st.myId st.topology q)
          (bfInit st.myId st.nodes (st.routing_table, st.next_hop))).2 := by
        intro hh
        rcases h5 d hh with h6 | h6
        · exact hdn h6
        · obtain ⟨pr, hpr, hfst⟩ := List.mem_map.mp h6
          exact hdn (hfst ▸ hnhwf pr hpr)
      unfold agetD
      rw [(alookup_eq_none_iff _ _).mpr hnot]
      rfl

theorem C2_witness :
    DvWF exA ∧
    (agetD (recompute_routing_table exA).routing_table exA.myId ⊤ = 0 ∧
     agetD (recompute_routing_table exA).next_hop exA.myId none = some exA.myId ∧
     ∀ d, agetD (recompute_routing_table exA).routing_table d ⊤ = ⊤ →
       agetD (recompute_routing_table exA).next_hop d none = none) :=
  ⟨by decide, C2_recompute_self_and_unreachable exA (by decide)⟩

/-- C10: processing an inbound advertisement never increases any
routing-table entry: every destination's cost after the update is at most
its cost before, because a candidate cost computed through the sender is
adopted only when strictly smaller than the current entry. -/
theorem C10_inbound_never_raises (st : DvState) (sid : Nat)
    (tbl : List (Nat × Cost)) (d : Nat) :
    agetD (process_message st (DvMsg.routingUpdate sid tbl)).1.routing_table d ⊤ ≤
      agetD st.routing_table d ⊤ := by
  simp only [process_message]
  split_ifs with h
  · exact le_refl _
  · simp only [processRU]
    split_ifs with h2 <;>
      exact foldl_mono_proj (fun x => x.1) (ruFold st.myId sid)
        (fun a b dd => ruFold_mono_step st.myId sid a b dd) tbl
        (st.routing_table, st.next_hop, false) d

end DVR

